import Mathlib

/-!
Verification of the seekapa-bi-agent coordination layer against its
natural-language specification.  Each section shallowly embeds one Python
module of the backend (pure data flow made explicit, state passing made
explicit) and proves or refutes the spec claims about it.

Conventions used throughout:
* Python floats that only ever carry the fixed cost weights and score
  increments (0.1, 0.2, 0.25, 0.3, 0.35, 0.4, 1.0) are modelled as
  rationals; every concrete computation relevant to a theorem below is
  exact in binary floating point as well, which is noted where it matters.
* Cryptographic hashes (SHA-256, MD5) are modelled as injective string
  encodings, the standard collision-free idealisation.
* Wall-clock time is modelled in whole seconds as naturals.
-/

namespace ModelRouter

/-! Embedding of backend/app/services/azure_ai_enhanced.py
(EnhancedAzureAIService): the model variants, the cost-optimisation
selection rules and the cost accounting performed by call_gpt5 and
_select_optimal_model. -/

/-- The four GPT-5 variants of self.model_configs (azure_ai_enhanced.py
lines 56-85).  The set is fixed at startup. -/
inductive ModelVariant where
  | nano
  | mini
  | chat
  | full
deriving DecidableEq, Repr

/-- Deployment name strings of the four variants. -/
def ModelVariant.deployment : ModelVariant → String
  | .nano => "gpt-5-nano"
  | .mini => "gpt-5-mini"
  | .chat => "gpt-5-chat"
  | .full => "gpt-5"

/-- cost_multiplier field of model_configs: 0.1, 0.25, 0.4, 1.0. -/
def costMultiplier : ModelVariant → ℚ
  | .nano => 1/10
  | .mini => 1/4
  | .chat => 2/5
  | .full => 1

/-- Complexity levels returned by ModelSelector.analyze_query_complexity
(model_selector.py): the function only ever returns one of these four
strings. -/
inductive ComplexityLevel where
  | simple
  | medium
  | complex
  | advanced
deriving DecidableEq, Repr

/-- _apply_cost_optimization_rules (azure_ai_enhanced.py lines 233-273),
translated clause by clause.  The analysis argument is the
complexity_indicators list of QueryAnalyzer.analyze; the context argument
is the truthiness of context.get with key high_accuracy.  The Python code
after the complexity if/elif/else (rules 3 and the final default) is
unreachable because every branch of rule 2 returns, and is therefore not
part of the function graph. -/
def applyCostOptimizationRules (complexityLevel : ComplexityLevel)
    (totalTokens : ℕ) (complexityIndicators : List String)
    (highAccuracy : Bool) : ModelVariant :=
  if totalTokens ≤ 512 then .nano
  else if totalTokens ≤ 1536 then .mini
  else
    match complexityLevel with
    | .simple => .nano
    | .medium => if highAccuracy then .chat else .mini
    | .complex => if complexityIndicators.length ≥ 2 then .full else .chat
    | .advanced => .full

/-- cost_savings_data dictionary of EnhancedAzureAIService.__init__
(azure_ai_enhanced.py lines 37-45). -/
structure CostSavingsData where
  totalSaved : ℚ
  requestsOptimized : ℕ
  fallbackUsage : ℕ
  cacheHits : ℕ
  modelDowngrades : ℕ
  totalCost : ℚ
  baselineCost : ℚ
deriving DecidableEq, Repr

/-- The zero-initialised cost_savings_data. -/
def CostSavingsData.init : CostSavingsData :=
  { totalSaved := 0, requestsOptimized := 0, fallbackUsage := 0,
    cacheHits := 0, modelDowngrades := 0, totalCost := 0, baselineCost := 0 }

/-- Cost-accounting effect of _select_optimal_model (azure_ai_enhanced.py
lines 204-219): baseline_cost += cost of gpt-5 (the baseline model),
total_cost += cost of the selected model, model_downgrades incremented
when the selection differs from the baseline. -/
def selectOptimalModelAccounting (d : CostSavingsData)
    (selected : ModelVariant) : CostSavingsData :=
  { d with
    baselineCost := d.baselineCost + costMultiplier .full
    totalCost := d.totalCost + costMultiplier selected
    modelDowngrades :=
      d.modelDowngrades + (if selected ≠ .full then 1 else 0) }

/-- Cost-accounting effect of one call_gpt5 invocation (azure_ai_enhanced.py
lines 119-141) on cost_savings_data, for a configured API key.  Step 1:
when the cache holds a reply for the query and the call is not streaming,
cache_hits is incremented and the function returns the cached reply at
line 133, before _select_optimal_model runs.  Otherwise steps 2-3 run the
selection (whose accounting is selectOptimalModelAccounting) and increment
requests_optimized. -/
def callGpt5Accounting (d : CostSavingsData) (cacheHit stream : Bool)
    (complexityLevel : ComplexityLevel) (totalTokens : ℕ)
    (complexityIndicators : List String) (highAccuracy : Bool) :
    CostSavingsData :=
  if cacheHit && !stream then
    { d with cacheHits := d.cacheHits + 1 }
  else
    let selected := applyCostOptimizationRules complexityLevel totalTokens
      complexityIndicators highAccuracy
    let d1 := selectOptimalModelAccounting d selected
    { d1 with requestsOptimized := d1.requestsOptimized + 1 }

/-- The selection rules as the specification words them (spec section 4.5,
rules 1-3): a second definition written from the spec text, to be compared
with the translation of the source.  The spec reads the complex case as
escalating to full when the classifier reports at least two DISTINCT
complexity indicators, hence the deduplicated count. -/
def specSelectionRules (complexityLevel : ComplexityLevel)
    (totalTokens : ℕ) (complexityIndicators : List String)
    (highAccuracy : Bool) : ModelVariant :=
  if totalTokens ≤ 512 then .nano
  else if totalTokens ≤ 1536 then .mini
  else
    match complexityLevel with
    | .simple => .nano
    | .medium => if highAccuracy then .chat else .mini
    | .complex =>
        if complexityIndicators.dedup.length ≥ 2 then .full else .chat
    | .advanced => .full

end ModelRouter

namespace WebSocketSvc

/-! Embedding of backend/app/services/websocket.py: ConnectionPool,
MessageBatcher and the parts of ConnectionManager that the claims concern
(connect, disconnect, send_personal_message).  Heartbeat tasks, group
routing, compression and per-connection metadata are not modelled: no
claim under consideration mentions them.  A message is identified with its
canonical JSON serialisation (json.dumps with sorted keys), and MD5 is
modelled as an injective encoding. -/

abbrev ClientId := String

/-- A frame, identified with its canonical JSON serialisation. -/
abbrev Message := String

/-- _get_message_hash (websocket.py lines 249-252): MD5 of the canonical
serialisation, modelled injectively. -/
def msgHash (m : Message) : String := "md5:" ++ m

/-- Association-list lookup with default, modelling dict.get. -/
def lookupD {α : Type} (l : List (ClientId × α)) (c : ClientId) (d : α) : α :=
  match l.find? (fun p => p.1 == c) with
  | some p => p.2
  | none => d

/-- Association-list update, modelling dict item assignment. -/
def updateAssoc {α : Type} (l : List (ClientId × α)) (c : ClientId)
    (v : α) : List (ClientId × α) :=
  if l.any (fun p => p.1 == c) then
    l.map (fun p => if p.1 == c then (c, v) else p)
  else l ++ [(c, v)]

/-- ConnectionPool (websocket.py lines 23-52).  active_count is a Python
int, so it is modelled as an integer.  waiting_queue is declared in
__init__ and read by get_stats but nothing in the module ever appends to
it. -/
structure ConnectionPool where
  maxConnections : ℕ
  activeCount : ℤ
  waitingQueue : List ClientId
deriving DecidableEq, Repr

/-- A fresh pool, as built in __init__. -/
def ConnectionPool.init (maxConnections : ℕ) : ConnectionPool :=
  { maxConnections := maxConnections, activeCount := 0, waitingQueue := [] }

/-- ConnectionPool.acquire (websocket.py lines 32-38): refuse when
active_count has reached max_connections, otherwise take the semaphore and
increment.  The semaphore itself never blocks on this path because the
guard keeps active_count below capacity. -/
def ConnectionPool.acquire (p : ConnectionPool) : Bool × ConnectionPool :=
  if p.activeCount ≥ (p.maxConnections : ℤ) then (false, p)
  else (true, { p with activeCount := p.activeCount + 1 })

/-- ConnectionPool.release (websocket.py lines 40-43). -/
def ConnectionPool.release (p : ConnectionPool) : ConnectionPool :=
  { p with activeCount := p.activeCount - 1 }

/-- The two pool operations that the manager performs. -/
inductive PoolOp where
  | acq
  | rel
deriving DecidableEq, Repr

/-- One pool operation. -/
def ConnectionPool.step (p : ConnectionPool) : PoolOp → ConnectionPool
  | .acq => (p.acquire).2
  | .rel => p.release

/-- A sequence of pool operations from a given pool state. -/
def ConnectionPool.run (p : ConnectionPool) (ops : List PoolOp) :
    ConnectionPool :=
  ops.foldl ConnectionPool.step p

/-- Payload actually written to the peer socket: a single frame, or a
batch wrapper holding the flushed messages (websocket.py lines 313-316). -/
inductive Payload where
  | single (m : Message)
  | batchWrap (ms : List Message)
deriving DecidableEq, Repr

/-- The ConnectionManager state relevant to the claims: the admission
pool, the active-connection table, the per-client dedup caches
(message_cache), the per-client batch buffers (MessageBatcher.batches) and
the log of payloads actually transmitted to peers. -/
structure ManagerState where
  pool : ConnectionPool
  activeConnections : List ClientId
  messageCache : List (ClientId × List String)
  batches : List (ClientId × List Message)
  transmitted : List (ClientId × Payload)
deriving DecidableEq, Repr

/-- cache_size_limit (websocket.py line 126). -/
def cacheSizeLimit : ℕ := 1000

/-- max_batch_size of the MessageBatcher (websocket.py line 110). -/
def maxBatchSize : ℕ := 50

/-- MessageBatcher.add_message (websocket.py lines 65-79): append the
message to the client batch and report whether the batch is now full and
must be sent immediately.  When the batch is not full the method schedules
_delayed_batch_send and reports false. -/
def addMessage (batches : List (ClientId × List Message)) (c : ClientId)
    (m : Message) : Bool × List (ClientId × List Message) :=
  let batch1 := lookupD batches c [] ++ [m]
  (batch1.length ≥ maxBatchSize, updateAssoc batches c batch1)

/-- MessageBatcher.get_batch (websocket.py lines 86-90): copy and clear. -/
def getBatch (batches : List (ClientId × List Message)) (c : ClientId) :
    List Message × List (ClientId × List Message) :=
  (lookupD batches c [], updateAssoc batches c [])

/-- MessageBatcher._delayed_batch_send (websocket.py lines 81-84).  The
coroutine body is exactly: await asyncio.sleep(batch_window_ms / 1000);
return True.  It reads no batch, sends nothing and mutates no state, and
the task created for it at line 76 is never awaited and its result never
consumed, so its completion after the 100 ms window leaves the manager
state unchanged. -/
def delayedBatchSend (st : ManagerState) : ManagerState := st

/-- Outcome of send_personal_message for the caller. -/
inductive SendOutcome where
  | notConnected
  | droppedDuplicate
  | batched
  | sent (p : Payload)
deriving DecidableEq, Repr

/-- send_personal_message (websocket.py lines 254-333), for a client whose
frames are sent as text JSON (compression only changes the wire encoding
of the same payload and is not modelled).  Order of effects as in the
source: (1) drop if the content hash is already in the per-client dedup
cache, before the batching branch and regardless of bypass_batch; (2)
record the hash, trimming the cache to its bounded size; (3) without
bypass_batch, append to the batch and return unless the batch reached
max_batch_size; (4) flush the batch, or send the single frame when
bypass_batch is set. -/
def sendPersonalMessage (st : ManagerState) (m : Message) (c : ClientId)
    (bypassBatch : Bool) : SendOutcome × ManagerState :=
  if c ∉ st.activeConnections then (.notConnected, st)
  else
    let h := msgHash m
    let cache := lookupD st.messageCache c []
    if h ∈ cache then (.droppedDuplicate, st)
    else
      let cache1 := cache ++ [h]
      let cache2 :=
        if cache1.length > cacheSizeLimit then
          cache1.drop (cache1.length - cacheSizeLimit)
        else cache1
      let st1 := { st with messageCache := updateAssoc st.messageCache c cache2 }
      if bypassBatch then
        let payload := Payload.single m
        (.sent payload,
          { st1 with transmitted := st1.transmitted ++ [(c, payload)] })
      else
        match addMessage st1.batches c m with
        | (false, batches1) => (.batched, { st1 with batches := batches1 })
        | (true, batches1) =>
            let st2 := { st1 with batches := batches1 }
            let (msgs, batches2) := getBatch st2.batches c
            let payload :=
              match msgs with
              | [onlyMsg] => Payload.single onlyMsg
              | _ => Payload.batchWrap msgs
            (.sent payload,
              { st2 with batches := batches2,
                         transmitted := st2.transmitted ++ [(c, payload)] })

/-- Result of ConnectionManager.connect for the caller. -/
inductive ConnectOutcome where
  | refused1013
  | accepted (c : ClientId)
deriving DecidableEq, Repr

/-- ConnectionManager.connect (websocket.py lines 128-198): when the pool
refuses, the socket is closed with code 1013 and the client is neither
registered nor queued; otherwise the client is registered and a welcome
frame is sent with bypass_batch=True.  The generated client id and the
welcome frame content (which embeds timestamps and pool statistics) are
inputs of the model. -/
def connect (st : ManagerState) (clientId : ClientId) (welcome : Message) :
    ConnectOutcome × ManagerState :=
  let (ok, p) := st.pool.acquire
  if ok then
    let st1 := { st with
      pool := p
      activeConnections := st.activeConnections ++ [clientId] }
    (.accepted clientId, (sendPersonalMessage st1 welcome clientId true).2)
  else (.refused1013, { st with pool := p })

/-- ConnectionManager.disconnect (websocket.py lines 216-242): for a
connected client, cancel bookkeeping and release exactly one admission
permit.  The dedup cache and batch buffer of the client are not cleared by
the source. -/
def disconnect (st : ManagerState) (c : ClientId) : ManagerState :=
  if c ∈ st.activeConnections then
    { st with activeConnections := st.activeConnections.erase c,
              pool := st.pool.release }
  else st

end WebSocketSvc

namespace Audit

/-! Embedding of backend/app/services/audit.py (AuditLogger): the hash
chain built by log_event via _calculate_event_hash, the audit:last_hash
pointer kept in the backing store, and the integrity verification used by
generate_compliance_report.  SHA-256 is modelled as an injective string
encoding; event ids and timestamps are inputs (uuid4 and the wall clock
are external). -/

/-- SHA-256, modelled as an injective encoding (ideal collision-free
hash). -/
def sha256 (s : String) : String := "sha256:" ++ s

/-- The AuditEvent fields that _calculate_event_hash serialises, plus the
stored integrity hash (audit.py lines 76-95).  The timestamp is a natural
number standing for the isoformat string of a monotone clock. -/
structure AuditEvent where
  eventId : String
  timestamp : ℕ
  eventType : String
  action : String
  result : String
  userId : Option String
  hash : Option String
deriving DecidableEq, Repr

/-- Store state: the persisted events and the audit:last_hash pointer. -/
structure AuditState where
  events : List AuditEvent
  lastHash : Option String
deriving DecidableEq, Repr

/-- Fresh store: no events, no last-hash pointer. -/
def AuditState.init : AuditState := { events := [], lastHash := none }

/-- _calculate_event_hash (audit.py lines 122-135): serialise event_id,
timestamp, event_type, action and result joined by colons, append the
user_id when present, append the CURRENT value of the audit:last_hash key
when present, and hash the result.  The lastHash argument is whatever that
key holds at call time. -/
def calculateEventHash (e : AuditEvent) (lastHash : Option String) : String :=
  let base := e.eventId ++ ":" ++ toString e.timestamp ++ ":" ++ e.eventType
    ++ ":" ++ e.action ++ ":" ++ e.result
  let base1 :=
    match e.userId with
    | some u => base ++ ":" ++ u
    | none => base
  let base2 :=
    match lastHash with
    | some h => base1 ++ ":" ++ h
    | none => base1
  sha256 base2

/-- log_event (audit.py lines 137-215), restricted to its store effects:
build the event, stamp it with _calculate_event_hash (which reads the
current audit:last_hash), persist it, and move audit:last_hash to the new
hash. -/
def logEvent (st : AuditState) (eventId : String) (timestamp : ℕ)
    (eventType action result : String) (userId : Option String) :
    AuditState :=
  let ev0 : AuditEvent :=
    { eventId := eventId, timestamp := timestamp, eventType := eventType,
      action := action, result := result, userId := userId, hash := none }
  let h := calculateEventHash ev0 st.lastHash
  { events := st.events ++ [{ ev0 with hash := some h }], lastHash := some h }

/-- _verify_integrity (audit.py lines 428-441): walk the events sorted by
timestamp and recompute each hash with _calculate_event_hash, which reads
the CURRENT audit:last_hash key; report False on the first mismatch.  The
local variable previous_hash of the source is assigned None and never
updated or read, so every recomputation uses the same live pointer.  The
boolean outcome is the conjunction of the per-event checks and does not
depend on the iteration order, so the sort is dropped here. -/
def verifyIntegrity (st : AuditState) (events : List AuditEvent) : Bool :=
  events.all (fun e => e.hash == some (calculateEventHash e st.lastHash))

/-- generate_compliance_report (audit.py lines 370-426): the
integrity_verified field of the report is _verify_integrity applied to the
events of the reporting window. -/
def complianceReportIntegrityVerified (st : AuditState)
    (events : List AuditEvent) : Bool :=
  verifyIntegrity st events

end Audit

namespace AuthSvc

/-! Embedding of backend/app/services/auth.py (AuthService): token
revocation through the jti blacklist, token decoding, and the UserAuth
password validation.  Signed JWTs are modelled by their payloads (only
well-signed tokens are represented; a bad signature fails decoding inside
the external jose library with the same 401 outcome).  Time is in whole
seconds. -/

/-- The payload fields of an issued token that decode_token and
revoke_token inspect: the unique token id (jti, a 32-byte random string,
hence non-empty) and the expiry timestamp. -/
structure TokenPayload where
  jti : String
  exp : ℕ
deriving DecidableEq, Repr

/-- The jti blacklist: redis keys blacklist:jti with their expiry times.
An entry (j, t) exists at time now exactly when now < t. -/
abbrev Blacklist := List (String × ℕ)

/-- redis exists on the blacklist key at a given time. -/
def blacklistActive (bl : Blacklist) (jti : String) (now : ℕ) : Bool :=
  bl.any (fun e => e.1 == jti && now < e.2)

/-- The two Unauthorized failures of decode_token (auth.py lines 212-231):
the jose decode error (bad signature or expired) and the revoked-token
rejection.  Both raise HTTPException with status 401. -/
inductive DecodeFailure where
  | invalidToken
  | revoked
deriving DecidableEq, Repr

/-- HTTP status of each decode failure: always 401. -/
def DecodeFailure.statusCode : DecodeFailure → ℕ
  | .invalidToken => 401
  | .revoked => 401

/-- decode_token (auth.py lines 212-231): jwt.decode validates signature
and expiry (expired tokens raise, caught and rethrown as 401); then a
token whose jti is on the blacklist is rejected with 401. -/
def decodeToken (tok : TokenPayload) (now : ℕ) (bl : Blacklist) :
    Except DecodeFailure TokenPayload :=
  if tok.exp ≤ now then .error .invalidToken
  else if tok.jti != "" && blacklistActive bl tok.jti now then .error .revoked
  else .ok tok

/-- HTTP status observed by a caller of decode_token. -/
def decodeStatus (tok : TokenPayload) (now : ℕ) (bl : Blacklist) : ℕ :=
  match decodeToken tok now bl with
  | .ok _ => 200
  | .error e => e.statusCode

/-- revoke_token (auth.py lines 233-247): decode the token (any failure is
caught and leaves the blacklist unchanged); with a jti present and a
positive remaining lifetime ttl = exp - now, setex the blacklist key with
expiry ttl, so the entry lives until exactly the token expiry. -/
def revokeToken (tok : TokenPayload) (now : ℕ) (bl : Blacklist) :
    Blacklist :=
  match decodeToken tok now bl with
  | .error _ => bl
  | .ok p =>
      if p.jti != "" then
        if p.exp - now > 0 then bl ++ [(p.jti, now + (p.exp - now))] else bl
      else bl

/-- ASCII lower-case letter, the class [a-z] of the password regex. -/
def isLowerAZ (c : Char) : Bool := 'a' ≤ c && c ≤ 'z'

/-- ASCII upper-case letter, the class [A-Z] of the password regex. -/
def isUpperAZ (c : Char) : Bool := 'A' ≤ c && c ≤ 'Z'

/-- Decimal digit, the class backslash-d of the password regex (the
passwords considered here are ASCII). -/
def isDigit09 (c : Char) : Bool := '0' ≤ c && c ≤ '9'

/-- The special characters the password regex accepts. -/
def isSpecialPw (c : Char) : Bool :=
  c == '@' || c == '$' || c == '!' || c == '%' || c == '*' || c == '?' ||
  c == '&'

/-- The main character class of the password regex: letters, digits and
the seven accepted specials. -/
def isAllowedPw (c : Char) : Bool :=
  isLowerAZ c || isUpperAZ c || isDigit09 c || isSpecialPw c

/-- Semantics of a lookahead of the form dot-star followed by a character
class, anchored at the start: some character of the class occurs with no
newline before it (the regex dot does not cross newlines). -/
def lookaheadContains (cls : Char → Bool) : List Char → Bool
  | [] => false
  | c :: rest => cls c || (c != '\n' && lookaheadContains cls rest)

/-- PASSWORD_COMPLEXITY_REGEX (auth.py line 36) applied with re.match:
four lookaheads demanding a lower-case letter, an upper-case letter, a
digit and one of the specials, then a single character of the main class.
The pattern has no length quantifier and no end anchor, so beyond the
lookaheads only the first character is constrained. -/
def passwordRegexMatch (p : List Char) : Bool :=
  lookaheadContains isLowerAZ p && lookaheadContains isUpperAZ p &&
  lookaheadContains isDigit09 p && lookaheadContains isSpecialPw p &&
  (match p with
   | [] => false
   | c :: _ => isAllowedPw c)

/-- Validation failures of the UserAuth request model. -/
inductive ValidationError where
  | usernameLength
  | passwordTooShort
  | passwordComplexity
deriving DecidableEq, Repr

/-- Construction of the UserAuth request model (auth.py lines 109-122):
pydantic enforces the username length bounds and the password min_length
of 12, then validate_password_strength applies the complexity regex.  A
rejected password raises a validation error here, before any handler or
service code runs. -/
def mkUserAuth (username password : String) :
    Except ValidationError (String × String) :=
  if username.length < 3 || username.length > 50 then .error .usernameLength
  else if password.length < 12 then .error .passwordTooShort
  else if !passwordRegexMatch password.data then .error .passwordComplexity
  else .ok (username, password)

/-- hash_password (auth.py lines 153-155): bcrypt with per-entry salt,
modelled as an injective tagging (the hash itself is external). -/
def hashPassword (p : String) : String := "bcrypt:" ++ p

/-- The credential-processing gate: any handler receiving a UserAuth can
only run, and hence only hash, once the model construction succeeded. -/
def credentialPipeline (username password : String) :
    Except ValidationError String :=
  (mkUserAuth username password).map (fun u => hashPassword u.2)

end AuthSvc

namespace LogicApps

/-! Embedding of backend/app/services/logic_apps_enhanced.py: the
WorkflowStatus values, WorkflowDefinition retry configuration, and the
retry structure of execute_workflow (lines 297-398).  The body of an
attempt (the external Logic App call) is modelled by an oracle giving the
outcome of each attempt; execution ids (uuid4 in the source) are modelled
by a fresh counter, which keeps exactly the information the claims need:
distinct calls receive distinct ids. -/

/-- WorkflowStatus (logic_apps_enhanced.py lines 26-34). -/
inductive WorkflowStatus where
  | pending
  | running
  | completed
  | failed
  | cancelled
  | timeout
  | retrying
deriving DecidableEq, Repr

/-- The retry-relevant fields of WorkflowDefinition (lines 55-73). -/
structure WorkflowDefinition where
  retryOnFailure : Bool
  maxRetries : ℕ
  retryCount : ℕ
deriving DecidableEq, Repr

/-- WorkflowDefinition.__init__: retry_count starts at 0 and max_retries
is config.get of max_retries with default 3. -/
def mkWorkflowDefinition (retryOnFailure : Bool) (maxRetriesCfg : Option ℕ) :
    WorkflowDefinition :=
  { retryOnFailure := retryOnFailure, maxRetries := maxRetriesCfg.getD 3,
    retryCount := 0 }

/-- One execution record of self.workflows: its execution id and the
successive values its status field takes. -/
structure ExecutionRecord where
  executionId : ℕ
  statusHistory : List WorkflowStatus
deriving DecidableEq, Repr

/-- Result of a (possibly retrying) execute_workflow call: the execution
records created, the backoff sleeps performed (seconds), the status of the
returned dictionary, and the definition with its updated retry counter. -/
structure ExecOutcome where
  records : List ExecutionRecord
  waits : List ℕ
  finalStatus : WorkflowStatus
  defn : WorkflowDefinition
deriving DecidableEq, Repr

/-- Recursion worker for execute_workflow.  The remaining argument is the
number of retries still available, max_retries - retry_count; the retry
guard of the source, retry_count < max_retries, holds exactly when
remaining is positive, and every recursive call keeps the correspondence
(retry_count grows by one while remaining shrinks by one). -/
def executeWorkflowAux (oracle : ℕ → Bool) :
    ℕ → WorkflowDefinition → ℕ → ExecOutcome
  | remaining, defn, nextId =>
    if oracle nextId then
      { records := [⟨nextId, [.pending, .running, .completed]⟩],
        waits := [], finalStatus := .completed, defn := defn }
    else
      let rec0 : ExecutionRecord := ⟨nextId, [.pending, .running, .failed]⟩
      match remaining with
      | r + 1 =>
          if defn.retryOnFailure then
            let defn1 := { defn with retryCount := defn.retryCount + 1 }
            let rest := executeWorkflowAux oracle r defn1 (nextId + 1)
            { records := rec0 :: rest.records,
              waits := 60 * defn1.retryCount :: rest.waits,
              finalStatus := rest.finalStatus, defn := rest.defn }
          else
            { records := [rec0], waits := [], finalStatus := .failed,
              defn := defn }
      | 0 =>
          { records := [rec0], waits := [], finalStatus := .failed,
            defn := defn }

/-- execute_workflow (logic_apps_enhanced.py lines 297-398).  Each call
creates a fresh execution id and a record whose status goes pending, then
running, then completed or failed.  On failure with retry_on_failure set
and retry_count < max_retries, the DEFINITION retry counter is bumped, the
call sleeps 60 * retry_count seconds and recurses, creating a new record
under a new execution id.  The retrying status value is never assigned
anywhere in the module. -/
def executeWorkflow (defn : WorkflowDefinition) (oracle : ℕ → Bool)
    (nextId : ℕ) : ExecOutcome :=
  executeWorkflowAux oracle (defn.maxRetries - defn.retryCount) defn nextId

end LogicApps

namespace Selector

/-! Embedding of backend/app/utils/model_selector.py
(ModelSelector.analyze_query_complexity, lines 49-127): keyword counting
by substring containment, word-count and token-count bands, the three
special patterns, normalisation and the argmax over the score dictionary.
Scores are rationals; every comparison the theorems below rely on is also
exact in binary floating point, which is noted at the counterexample.
count_tokens uses the documented fallback estimate (length divided by 4,
integer division): the BPE encoder is an external library. -/

/-- The complexity levels, shared with the router embedding. -/
abbrev Level := ModelRouter.ComplexityLevel

/-- Python str.lower on the ASCII range the keyword lists use. -/
def lowerStr (s : List Char) : List Char := s.map Char.toLower

/-- needle is a prefix of hay (character lists, exact comparison). -/
def isPrefixCh : List Char → List Char → Bool
  | [], _ => true
  | _ :: _, [] => false
  | a :: as, b :: bs => a == b && isPrefixCh as bs

/-- Python substring containment: needle in hay. -/
def isSubstrCh (needle : List Char) : List Char → Bool
  | [] => isPrefixCh needle []
  | c :: t => isPrefixCh needle (c :: t) || isSubstrCh needle t

/-- Number of keywords of a list occurring in the text, as computed by the
sum of the generator expressions at lines 71, 78 and 83. -/
def kwMatches (kws : List String) (q : List Char) : ℕ :=
  kws.countP (fun k => isSubstrCh k.data q)

/-- self.complex_keywords (model_selector.py lines 25-30). -/
def complexKeywords : List String :=
  ["analyze", "compare", "forecast", "predict", "trend",
   "correlation", "regression", "model", "statistical",
   "variance", "deviation", "distribution", "hypothesis",
   "optimize", "strategy", "recommendation", "insight"]

/-- self.simple_keywords (model_selector.py lines 32-35). -/
def simpleKeywords : List String :=
  ["what", "when", "where", "count", "total", "sum",
   "how many", "list", "show", "get", "find", "name"]

/-- self.medium_keywords (model_selector.py lines 37-40). -/
def mediumKeywords : List String :=
  ["explain", "describe", "why", "how", "summarize",
   "overview", "breakdown", "detail", "calculate"]

/-- Python str.split whitespace (space, tab, newline, carriage return,
vertical tab, form feed). -/
def isPySpace (c : Char) : Bool :=
  c == ' ' || c == '\t' || c == '\n' || c == '\r' || c.val == 11 ||
  c.val == 12

/-- Helper for pyWordCount: the flag records whether the scan is inside a
word. -/
def pyWordCountAux : Bool → List Char → ℕ
  | _, [] => 0
  | inWord, c :: t =>
      if isPySpace c then pyWordCountAux false t
      else (if inWord then 0 else 1) + pyWordCountAux true t

/-- len of Python str.split without arguments: the number of maximal
whitespace-separated runs. -/
def pyWordCount (s : List Char) : ℕ := pyWordCountAux false s

/-- count_tokens (model_selector.py lines 42-47) by the documented
fallback: length divided by 4 (the BPE encoder is external). -/
def countTokens (s : List Char) : ℕ := s.length / 4

/-- Word character of the regex word boundary: letter, digit or
underscore. -/
def isWordCh (c : Char) : Bool :=
  ('a' ≤ c && c ≤ 'z') || ('A' ≤ c && c ≤ 'Z') || ('0' ≤ c && c ≤ '9') ||
  c == '_'

/-- The alternative matches at the current position and is followed by a
word boundary (end of text or a non-word character). -/
def matchHereWB (alt : List Char) (hay : List Char) : Bool :=
  isPrefixCh alt hay &&
  (match hay.drop alt.length with
   | [] => true
   | c :: _ => !isWordCh c)

/-- Scan of re.search for a word-bounded alternation: at each position
whose predecessor is not a word character, try every alternative.  All
alternatives used by the source start and end with word characters. -/
def searchWBAux (alts : List (List Char)) : Bool → List Char → Bool
  | prevIsWord, hay =>
      (!prevIsWord && alts.any (fun a => matchHereWB a hay)) ||
      (match hay with
       | [] => false
       | c :: t => searchWBAux alts (isWordCh c) t)

/-- re.search of a word-bounded alternation over the whole text. -/
def searchWB (alts : List String) (hay : List Char) : Bool :=
  searchWBAux (alts.map String.data) false hay

/-- The raw score dictionary (insertion order simple, medium, complex,
advanced). -/
structure ComplexityScores where
  simple : ℚ
  medium : ℚ
  complex : ℚ
  advanced : ℚ
deriving DecidableEq, Repr

/-- Dictionary read at a level. -/
def ComplexityScores.get (s : ComplexityScores) : Level → ℚ
  | .simple => s.simple
  | .medium => s.medium
  | .complex => s.complex
  | .advanced => s.advanced

/-- Pointwise addition of score contributions. -/
def ComplexityScores.add (a b : ComplexityScores) : ComplexityScores :=
  ⟨a.simple + b.simple, a.medium + b.medium, a.complex + b.complex,
   a.advanced + b.advanced⟩

/-- sum of the dictionary values, in insertion order (line 118). -/
def ComplexityScores.total (s : ComplexityScores) : ℚ :=
  s.simple + s.medium + s.complex + s.advanced

/-- Keyword contributions (model_selector.py lines 70-85): 0.3 per complex
keyword, 0.2 per complex keyword beyond the third to advanced, 0.4 per
simple keyword, 0.35 per medium keyword. -/
def kwScores (complexMatches simpleMatches mediumMatches : ℕ) :
    ComplexityScores :=
  ⟨if simpleMatches > 0 then (simpleMatches : ℚ) * (2/5) else 0,
   if mediumMatches > 0 then (mediumMatches : ℚ) * (7/20) else 0,
   if complexMatches > 0 then (complexMatches : ℚ) * (3/10) else 0,
   if complexMatches > 3 then ((complexMatches - 3 : ℕ) : ℚ) * (1/5) else 0⟩

/-- Query-length contribution (lines 87-95): exactly one band fires. -/
def wordBandScores (wordCount : ℕ) : ComplexityScores :=
  if wordCount < 10 then ⟨3/10, 0, 0, 0⟩
  else if wordCount < 25 then ⟨0, 3/10, 0, 0⟩
  else if wordCount < 50 then ⟨0, 0, 3/10, 0⟩
  else ⟨0, 0, 0, 2/5⟩

/-- Token-count contribution (lines 97-105): exactly one band fires. -/
def tokenBandScores (tokenCount : ℕ) : ComplexityScores :=
  if tokenCount < 20 then ⟨1/5, 0, 0, 0⟩
  else if tokenCount < 50 then ⟨0, 1/5, 0, 0⟩
  else if tokenCount < 100 then ⟨0, 0, 1/5, 0⟩
  else ⟨0, 0, 0, 3/10⟩

/-- Special-pattern contribution (lines 107-115). -/
def patternScores (timeCmp queryLang ml : Bool) : ComplexityScores :=
  ⟨0, 0,
   (if timeCmp then 3/10 else 0) + (if queryLang then 1/5 else 0),
   if ml then 2/5 else 0⟩

/-- The raw complexity_scores dictionary after lines 62-115.  The first
two patterns are matched with IGNORECASE (both sides lowered here); the
third is matched case-sensitively against the already-lowered query, as in
the source, where the upper-case AI alternative therefore never fires. -/
def rawScores (q : List Char) : ComplexityScores :=
  let ql := lowerStr q
  (kwScores (kwMatches complexKeywords ql) (kwMatches simpleKeywords ql)
      (kwMatches mediumKeywords ql)).add
    ((wordBandScores (pyWordCount q)).add
      ((tokenBandScores (countTokens q)).add
        (patternScores (searchWB ["yoy", "qoq", "mom", "ytd", "mtd"] ql)
          (searchWB ["dax", "sql", "query", "formula"] ql)
          (searchWB ["machine learning", "AI", "deep learning", "neural"]
            ql))))

/-- Normalisation (lines 117-121): divide each entry by the total when the
total is positive. -/
def normalizedScores (q : List Char) : ComplexityScores :=
  let s := rawScores q
  let t := s.total
  if t > 0 then ⟨s.simple / t, s.medium / t, s.complex / t, s.advanced / t⟩
  else s

/-- Position of each level in the dictionary insertion order. -/
def levelIdx : Level → ℕ
  | .simple => 0
  | .medium => 1
  | .complex => 2
  | .advanced => 3

/-- Python max over the score dictionary with key access (line 124): fold
over the keys in insertion order, replacing the current best only on a
strictly greater value, so the FIRST key of maximal value wins. -/
def pyMaxLevel (f : Level → ℚ) : Level :=
  ([.medium, .complex, .advanced] : List Level).foldl
    (fun best k => if f k > f best then k else best) (.simple : Level)

/-- analyze_query_complexity (model_selector.py lines 49-127): compute the
normalised scores, take the first maximal level, and return it with its
normalised score as the confidence. -/
def analyzeQueryComplexity (q : List Char) : Level × ℚ :=
  let ns := normalizedScores q
  let lvl := pyMaxLevel ns.get
  (lvl, ns.get lvl)

end Selector

namespace Selector

/-- Concrete query for the tie-breaking evaluation: the simple keyword
"what" followed by 59 one-letter words.  60 words (at least 50), 122
characters, fallback token estimate 30 (a BPE count of about 60 lands in
the neighbouring band, which touches neither tied level), no medium or
complex keyword, no special pattern.  Raw scores: simple 0.4 (one simple
keyword), medium 0.2 (token band), advanced 0.4 (word band) - an exact tie
also in binary floating point, where 0.4 has a single representation and
the normalising division by the same total preserves the equality. -/
def cexQuery : List Char :=
  ("what a a a a a a a a a a a a a a a a a a a a a a a a a a a a a a a a" ++
   " a a a a a a a a a a a a a a a a a a a a a a a a a a a").data

end Selector

namespace Audit

/-- Two events logged from a fresh store, with externally supplied ids and
timestamps; nothing is mutated afterwards. -/
def c3State : AuditState :=
  logEvent
    (logEvent AuditState.init "ev-1" 1 "auth.login.success" "login"
      "success" (some "u1"))
    "ev-2" 2 "data.read" "read dataset" "success" none

end Audit

namespace LogicApps

/-- A definition with retry_on_failure set and the default max_retries,
run against a Logic App call that fails on every attempt. -/
def c5Run : ExecOutcome :=
  executeWorkflow (mkWorkflowDefinition true none) (fun _ => false) 0

end LogicApps

namespace WebSocketSvc

/-- A manager with one connected client and no buffered traffic. -/
def oneClientState : ManagerState :=
  { pool := { maxConnections := 1000, activeCount := 1, waitingQueue := [] },
    activeConnections := ["c1"], messageCache := [], batches := [],
    transmitted := [] }

/-- A manager whose admission pool is at capacity. -/
def fullPoolState : ManagerState :=
  { pool := { maxConnections := 1000, activeCount := 1000,
              waitingQueue := [] },
    activeConnections := ["c1"], messageCache := [], batches := [],
    transmitted := [] }

end WebSocketSvc

namespace WebSocketSvc

/-- Forty-nine pairwise distinct non-bypass frames. -/
def msgs49 : List Message := (List.range 49).map (fun i => "m" ++ toString i)

/-- Send a sequence of frames to one client without the bypass flag. -/
def sendSeq (st : ManagerState) (ms : List Message) (c : ClientId) :
    ManagerState :=
  ms.foldl (fun s m => (sendPersonalMessage s m c false).2) st

end WebSocketSvc

namespace ModelRouter

/-- C1 counterexample.  The claim asserts that a cache-served,
non-streaming chat request adds weight(full) = 1.0 to the baseline cost
total.  Evaluating the accounting of call_gpt5 on a cache hit from a fresh
counter state, the baseline total stays 0: the function returns the cached
reply before _select_optimal_model (the only writer of baseline_cost)
runs. -/
theorem cacheHitBaselineCounterexample :
    ¬ (callGpt5Accounting CostSavingsData.init true false .simple 10 []
        false).baselineCost
      = CostSavingsData.init.baselineCost + costMultiplier .full := by
  norm_num [callGpt5Accounting, CostSavingsData.init, costMultiplier]

/-- C1 (amended): for every chat request served from the cache (a
non-streaming call whose query has a cached reply), the cost accounting
increments the cache-hit counter and leaves every other counter unchanged;
in particular it adds 0 to the baseline cost total and 0 to the actual
cost total. -/
theorem cacheHitAccounting (d : CostSavingsData)
    (lvl : ComplexityLevel) (tk : ℕ) (ind : List String) (ha : Bool) :
    callGpt5Accounting d true false lvl tk ind ha
      = { d with cacheHits := d.cacheHits + 1 } := rfl

/-- C2: for every query routed without an explicit override, the selection
of _apply_cost_optimization_rules follows the ordered rules of the
specification: tokens at most 512 give nano, at most 1536 give mini,
otherwise simple gives nano, medium gives mini unless high_accuracy is
set (then chat), complex gives chat unless the analyzer reports at least
two distinct complexity indicators (then full), advanced gives full.  The
indicator list produced by QueryAnalyzer is duplicate-free (its four kinds
of labels carry distinct prefixes), which the hypothesis records, so the
length test of the source counts distinct indicators. -/
theorem selectionRulesMatchSpec (lvl : ComplexityLevel) (tk : ℕ)
    (ind : List String) (ha : Bool) (hnd : ind.Nodup) :
    applyCostOptimizationRules lvl tk ind ha
      = specSelectionRules lvl tk ind ha := by
  unfold applyCostOptimizationRules specSelectionRules
  rw [List.dedup_eq_self.mpr hnd]

/-- Witness for C2 at a concrete duplicate-free indicator list. -/
theorem selectionRulesMatchSpecWitness :
    (["multiple_metrics_3", "long_query"] : List String).Nodup ∧
    applyCostOptimizationRules .complex 2000
        ["multiple_metrics_3", "long_query"] false
      = specSelectionRules .complex 2000
        ["multiple_metrics_3", "long_query"] false :=
  ⟨by decide,
   selectionRulesMatchSpec .complex 2000 _ false (by decide)⟩

end ModelRouter

namespace Audit

/-- C3: evaluation at the failing input.  Two events are logged from a
fresh store and nothing is mutated.  The stored hashes do satisfy the
chain rule of the claim - the second hash covers the fields of its event
concatenated with the first hash - yet _verify_integrity returns false and
the compliance report flags the intact chain as unverified, because the
verifier recomputes every hash against the CURRENT audit:last_hash pointer
(which already includes the newest event) instead of the hash of each
predecessor event. -/
theorem verifierRejectsIntactChain :
    c3State.events.map AuditEvent.hash =
      [some (sha256 "ev-1:1:auth.login.success:login:success:u1"),
       some (sha256 ("ev-2:2:data.read:read dataset:success:" ++
         sha256 "ev-1:1:auth.login.success:login:success:u1"))] ∧
    verifyIntegrity c3State c3State.events = false ∧
    complianceReportIntegrityVerified c3State c3State.events = false := by
  exact ⟨rfl, by decide, by decide⟩

end Audit

namespace WebSocketSvc

set_option maxRecDepth 200000 in
/-- C4: evaluation at the failing input.  A single non-bypass frame sent
to a connected client is appended to the batch and nothing is transmitted;
the completion of the scheduled 100 ms window task
(_delayed_batch_send, which only sleeps and returns True) still transmits
nothing, so a batch of fewer than 50 frames is never sent by the window.
The size path does work: after 49 further distinct frames the buffer
reaches 50 and the 50th send flushes the whole batch. -/
theorem batchWindowNeverFlushes :
    (sendPersonalMessage oneClientState "m1" "c1" false).1 = .batched ∧
    lookupD (sendPersonalMessage oneClientState "m1" "c1" false).2.batches
        "c1" [] = ["m1"] ∧
    (sendPersonalMessage oneClientState "m1" "c1" false).2.transmitted
      = [] ∧
    (delayedBatchSend
        (sendPersonalMessage oneClientState "m1" "c1" false).2).transmitted
      = [] ∧
    lookupD (delayedBatchSend
        (sendPersonalMessage oneClientState "m1" "c1" false).2).batches
        "c1" [] = ["m1"] ∧
    (sendSeq oneClientState msgs49 "c1").transmitted = [] ∧
    (sendPersonalMessage (sendSeq oneClientState msgs49 "c1") "m49" "c1"
        false).1
      = .sent (Payload.batchWrap (msgs49 ++ ["m49"])) := by
  refine ⟨by decide, by decide, by decide, by decide, by decide, ?_, ?_⟩
  · decide
  · decide

end WebSocketSvc

namespace WebSocketSvc

/-- Any sequence of pool operations preserves the capacity bound and the
capacity itself. -/
theorem pool_run_le (ops : List PoolOp) (p : ConnectionPool)
    (hle : p.activeCount ≤ (p.maxConnections : ℤ)) :
    (p.run ops).maxConnections = p.maxConnections ∧
    (p.run ops).activeCount ≤ (p.maxConnections : ℤ) := by
  induction ops generalizing p with
  | nil => exact ⟨rfl, hle⟩
  | cons op t ih =>
      have hstep : (p.step op).maxConnections = p.maxConnections ∧
          (p.step op).activeCount ≤ (p.maxConnections : ℤ) := by
        cases op with
        | acq =>
            simp only [ConnectionPool.step, ConnectionPool.acquire]
            split_ifs with h
            · exact ⟨rfl, hle⟩
            · refine ⟨rfl, ?_⟩
              show p.activeCount + 1 ≤ (p.maxConnections : ℤ)
              push_neg at h
              omega
        | rel =>
            exact ⟨rfl, by simp only [ConnectionPool.step,
              ConnectionPool.release]; omega⟩
      have := ih (p.step op) (hstep.1 ▸ hstep.2)
      simpa [ConnectionPool.run, List.foldl_cons, hstep.1] using this

/-- C6: the admission pool accepts at most 1000 concurrent connections:
from a fresh pool of capacity 1000, no sequence of acquire and release
operations pushes the active count above 1000; when the pool is at (or
beyond) capacity, connect refuses the attempt with close code 1013 and
leaves the whole manager state - in particular the waiting queue and the
connection table - unchanged, so the attempt is not queued; and
disconnecting a connected client releases exactly one admission permit,
decreasing the active count by exactly 1. -/
theorem admissionPoolCap :
    (∀ ops : List PoolOp,
      ((ConnectionPool.init 1000).run ops).activeCount ≤ 1000) ∧
    (∀ (st : ManagerState) (cid : ClientId) (w : Message),
      (st.pool.maxConnections : ℤ) ≤ st.pool.activeCount →
      connect st cid w = (.refused1013, st)) ∧
    (∀ (st : ManagerState) (cid : ClientId), cid ∈ st.activeConnections →
      (disconnect st cid).pool.activeCount = st.pool.activeCount - 1) := by
  refine ⟨?_, ?_, ?_⟩
  · intro ops
    have := pool_run_le ops (ConnectionPool.init 1000)
      (by simp [ConnectionPool.init])
    simpa [ConnectionPool.init] using this.2
  · intro st cid w hfull
    have hacq : st.pool.acquire = (false, st.pool) := by
      simp only [ConnectionPool.acquire]
      rw [if_pos (by omega)]
    simp only [connect, hacq]
    rfl
  · intro st cid hmem
    simp only [disconnect, if_pos hmem, ConnectionPool.release]

/-- Witness for C6: a full pool refuses with 1013 without queueing, and a
disconnect decrements by one. -/
theorem admissionPoolCapWitness :
    ((ConnectionPool.init 1000).run [PoolOp.acq, PoolOp.rel]).activeCount
      ≤ 1000 ∧
    connect fullPoolState "c2" "welcome" = (.refused1013, fullPoolState) ∧
    (disconnect fullPoolState "c1").pool.activeCount
      = fullPoolState.pool.activeCount - 1 :=
  ⟨admissionPoolCap.1 _,
   admissionPoolCap.2.1 fullPoolState "c2" "welcome" (by decide),
   admissionPoolCap.2.2 fullPoolState "c1" (by decide)⟩

end WebSocketSvc

namespace WebSocketSvc

/-- In-place branch of updateAssoc: the rewritten entry is found. -/
theorem find?_map_update {α : Type} (t : List (ClientId × α))
    (c : ClientId) (v : α) (h : t.any (fun q => q.1 == c) = true) :
    (t.map (fun q => if q.1 == c then (c, v) else q)).find?
      (fun q => q.1 == c) = some (c, v) := by
  induction t with
  | nil => simp at h
  | cons p t ih =>
      simp only [List.map_cons]
      by_cases hp : p.1 = c
      · rw [List.find?_cons_of_pos _ (by simp [hp])]
        simp [hp]
      · rw [List.find?_cons_of_neg _ (by simp [hp])]
        apply ih
        simpa [List.any_cons, hp] using h

/-- Append branch of updateAssoc: the fresh entry is found. -/
theorem find?_append_update {α : Type} (t : List (ClientId × α))
    (c : ClientId) (v : α) (h : t.any (fun q => q.1 == c) = false) :
    (t ++ [(c, v)]).find? (fun q => q.1 == c) = some (c, v) := by
  induction t with
  | nil => simp
  | cons p t ih =>
      simp only [List.any_cons, Bool.or_eq_false_iff] at h
      simp only [List.cons_append]
      rw [List.find?_cons_of_neg _ (by simp [h.1])]
      exact ih h.2

/-- Reading back the key just written into the association map. -/
theorem find?_updateAssoc {α : Type} (l : List (ClientId × α))
    (c : ClientId) (v : α) :
    (updateAssoc l c v).find? (fun p => p.1 == c) = some (c, v) := by
  unfold updateAssoc
  split
  case isTrue h => exact find?_map_update l c v h
  case isFalse h =>
      exact find?_append_update l c v (Bool.eq_false_iff.mpr h)

/-- lookupD after updateAssoc at the same key. -/
theorem lookupD_updateAssoc_self {α : Type} (l : List (ClientId × α))
    (c : ClientId) (v : α) (d : α) :
    lookupD (updateAssoc l c v) c d = v := by
  simp [lookupD, find?_updateAssoc]

/-- Effect of send_personal_message on the dedup cache for a fresh
message: the hash is appended to the per-client cache (no trim below the
bound), and the connection table is untouched, whatever the bypass flag
and whatever the batching branch taken. -/
theorem sendFreshMessageCache (st : ManagerState) (m : Message)
    (c : ClientId) (b : Bool) (hconn : c ∈ st.activeConnections)
    (hmem : msgHash m ∉ lookupD st.messageCache c [])
    (hsize : (lookupD st.messageCache c []).length < cacheSizeLimit) :
    (sendPersonalMessage st m c b).2.messageCache
      = updateAssoc st.messageCache c
          (lookupD st.messageCache c [] ++ [msgHash m]) ∧
    (sendPersonalMessage st m c b).2.activeConnections
      = st.activeConnections := by
  have htrim : ¬ ((lookupD st.messageCache c [] ++ [msgHash m]).length
      > cacheSizeLimit) := by
    simp only [List.length_append, List.length_cons, List.length_nil]
    omega
  simp only [sendPersonalMessage]
  rw [if_neg (not_not_intro hconn), if_neg hmem, if_neg htrim]
  cases b with
  | true => exact ⟨rfl, rfl⟩
  | false =>
      refine ⟨?_, ?_⟩ <;> · split <;> (try split) <;> rfl

/-- C10: for every connected client, a message whose content hash is in
the per-client dedup cache is silently dropped by send_personal_message,
before batching and regardless of the bypass flag; in particular, sending
the same message value twice in succession transmits it at most once while
the bounded cache has room: the first call records the content hash and
the second call returns droppedDuplicate with the state - transmission log
and batch buffers included - unchanged. -/
theorem dedupDropsRepeat (st : ManagerState) (m : Message) (c : ClientId)
    (b1 b2 : Bool) (hconn : c ∈ st.activeConnections)
    (hsize : (lookupD st.messageCache c []).length < cacheSizeLimit) :
    msgHash m ∈ lookupD (sendPersonalMessage st m c b1).2.messageCache
      c [] ∧
    (∀ st2 : ManagerState, c ∈ st2.activeConnections →
      msgHash m ∈ lookupD st2.messageCache c [] →
      sendPersonalMessage st2 m c b2 = (.droppedDuplicate, st2)) ∧
    sendPersonalMessage (sendPersonalMessage st m c b1).2 m c b2
      = (.droppedDuplicate, (sendPersonalMessage st m c b1).2) := by
  have partDrop : ∀ (st2 : ManagerState) (b : Bool),
      c ∈ st2.activeConnections →
      msgHash m ∈ lookupD st2.messageCache c [] →
      sendPersonalMessage st2 m c b = (.droppedDuplicate, st2) := by
    intro st2 b h1 h2
    simp only [sendPersonalMessage]
    rw [if_neg (not_not_intro h1), if_pos h2]
  by_cases hmem : msgHash m ∈ lookupD st.messageCache c []
  · have h1 := partDrop st b1 hconn hmem
    rw [h1]
    exact ⟨hmem, fun st2 => partDrop st2 b2, partDrop st b2 hconn hmem⟩
  · have hfresh := sendFreshMessageCache st m c b1 hconn hmem hsize
    have hin : msgHash m
        ∈ lookupD (sendPersonalMessage st m c b1).2.messageCache c [] := by
      rw [hfresh.1, lookupD_updateAssoc_self]
      exact List.mem_append_right _ (List.mem_singleton.mpr rfl)
    have hconn1 : c ∈ (sendPersonalMessage st m c b1).2.activeConnections :=
      hfresh.2 ▸ hconn
    exact ⟨hin, fun st2 => partDrop st2 b2,
      partDrop _ b2 hconn1 hin⟩

/-- Witness for C10: a concrete repeated frame, the second send with the
bypass flag set, dropped with the state unchanged. -/
theorem dedupDropsRepeatWitness :
    ("c1" ∈ oneClientState.activeConnections) ∧
    (lookupD oneClientState.messageCache "c1" []).length < cacheSizeLimit ∧
    sendPersonalMessage
        (sendPersonalMessage oneClientState "hello" "c1" false).2
        "hello" "c1" true
      = (.droppedDuplicate,
         (sendPersonalMessage oneClientState "hello" "c1" false).2) :=
  ⟨by decide, by decide,
   (dedupDropsRepeat oneClientState "hello" "c1" false true (by decide)
     (by decide)).2.2⟩

end WebSocketSvc

namespace AuthSvc

/-- C7: for every issued access token with a positive remaining lifetime
and not already revoked, revoke_token places its unique id in the
blacklist with a TTL equal to the remaining lifetime (the entry lives
until exactly the expiry instant), and every subsequent decode_token call
fails with a 401 Unauthorized - during the remaining lifetime because the
jti is blacklisted, and afterwards because the token is expired. -/
theorem revokedTokenUnauthorized (tok : TokenPayload) (t0 : ℕ)
    (bl : Blacklist) (hjti : tok.jti ≠ "") (hlive : t0 < tok.exp)
    (hnot : blacklistActive bl tok.jti t0 = false) :
    (tok.jti, tok.exp) ∈ revokeToken tok t0 bl ∧
    ∀ t, t0 ≤ t → decodeStatus tok t (revokeToken tok t0 bl) = 401 := by
  have hdec : decodeToken tok t0 bl = .ok tok := by
    simp only [decodeToken]
    rw [if_neg (by omega), if_neg (by simp [hnot])]
  have harith : t0 + (tok.exp - t0) = tok.exp := by omega
  have hrev : revokeToken tok t0 bl = bl ++ [(tok.jti, tok.exp)] := by
    simp only [revokeToken, hdec]
    rw [if_pos (by simpa using hjti), if_pos (by omega), harith]
  refine ⟨by rw [hrev]; exact List.mem_append_right _ (by simp), ?_⟩
  intro t ht
  by_cases hexp : tok.exp ≤ t
  · simp only [decodeStatus, decodeToken, if_pos hexp]
    rfl
  · have hbl : blacklistActive (revokeToken tok t0 bl) tok.jti t = true := by
      rw [hrev]
      simp only [blacklistActive, List.any_append, List.any_cons,
        List.any_nil, Bool.or_eq_true]
      right
      simp only [Bool.or_false, Bool.and_eq_true, beq_self_eq_true,
        true_and, decide_eq_true_eq]
      omega
    simp only [decodeStatus, decodeToken, if_neg hexp]
    rw [if_pos (by simp [hbl, hjti])]
    rfl

/-- Witness for C7 at a concrete token and clock. -/
theorem revokedTokenUnauthorizedWitness :
    (({ jti := "tok-1", exp := 100 } : TokenPayload).jti ≠ "") ∧
    40 < ({ jti := "tok-1", exp := 100 } : TokenPayload).exp ∧
    blacklistActive [] "tok-1" 40 = false ∧
    ("tok-1", 100) ∈ revokeToken ⟨"tok-1", 100⟩ 40 [] ∧
    decodeStatus ⟨"tok-1", 100⟩ 70 (revokeToken ⟨"tok-1", 100⟩ 40 []) = 401 ∧
    decodeStatus ⟨"tok-1", 100⟩ 150 (revokeToken ⟨"tok-1", 100⟩ 40 [])
      = 401 := by
  have h := revokedTokenUnauthorized ⟨"tok-1", 100⟩ 40 [] (by decide)
    (by decide) (by decide)
  exact ⟨by decide, by decide, by decide, h.1, h.2 70 (by decide),
    h.2 150 (by decide)⟩

end AuthSvc

namespace AuthSvc

/-- Characters of the password alphabet are not newlines, so the regex
lookaheads scan past them. -/
theorem allowedPw_ne_newline (c : Char) (h : isAllowedPw c = true) :
    (c != '\n') = true := by
  simp only [bne_iff_ne, ne_eq]
  intro hc
  subst hc
  exact absurd h (by decide)

/-- Over a newline-free text, a lookahead succeeds as soon as some
character of the class occurs. -/
theorem lookaheadContains_of_mem (cls : Char → Bool) (p : List Char)
    (hall : ∀ c ∈ p, isAllowedPw c = true)
    (hex : ∃ c ∈ p, cls c = true) :
    lookaheadContains cls p = true := by
  induction p with
  | nil => rcases hex with ⟨c, hc, _⟩; cases hc
  | cons a t ih =>
      simp only [lookaheadContains, Bool.or_eq_true]
      by_cases ha : cls a = true
      · exact Or.inl ha
      · right
        rcases hex with ⟨c, hc, hcls⟩
        rcases List.mem_cons.mp hc with rfl | hct
        · exact absurd hcls ha
        · rw [Bool.and_eq_true]
          refine ⟨allowedPw_ne_newline a (hall a (List.mem_cons_self a t)),
            ?_⟩
          exact ih (fun x hx => hall x (List.mem_cons_of_mem _ hx))
            ⟨c, hct, hcls⟩

/-- C8 counterexample.  The password Aa1#bcdefghi has length 12 and
contains an upper-case letter, a lower-case letter, a digit and a special
(non-alphanumeric) character, so the claim says it is accepted; the
validator rejects it, because the regex only recognises the specials
@ $ ! % * ? & and the hash sign is not among them. -/
theorem passwordPolicyCounterexample :
    ("Aa1#bcdefghi" : String).length = 12 ∧
    (∃ c ∈ ("Aa1#bcdefghi" : String).data, isUpperAZ c = true) ∧
    (∃ c ∈ ("Aa1#bcdefghi" : String).data, isLowerAZ c = true) ∧
    (∃ c ∈ ("Aa1#bcdefghi" : String).data, isDigit09 c = true) ∧
    (∃ c ∈ ("Aa1#bcdefghi" : String).data, c.isAlphanum = false) ∧
    mkUserAuth "analyst1" "Aa1#bcdefghi" = .error .passwordComplexity := by
  exact ⟨rfl, by decide, by decide, by decide, by decide, rfl⟩

/-- C8 (amended): the validator rejects every password of length 11 or
less (pydantic min_length, before the validator and before any handler or
hashing code), and accepts every password of length at least 12 drawn from
letters, digits and the specials @ $ ! % * ? & that contains at least one
upper-case letter, one lower-case letter, one digit and one of those
specials; a rejected password never reaches the hasher because the
credential pipeline only hashes after a successful model construction. -/
theorem passwordPolicy (u p q : String)
    (hu1 : 3 ≤ u.length) (hu2 : u.length ≤ 50) (hq : q.length ≤ 11)
    (hlen : 12 ≤ p.length)
    (halpha : ∀ c ∈ p.data, isAllowedPw c = true)
    (hupp : ∃ c ∈ p.data, isUpperAZ c = true)
    (hlow : ∃ c ∈ p.data, isLowerAZ c = true)
    (hdig : ∃ c ∈ p.data, isDigit09 c = true)
    (hspc : ∃ c ∈ p.data, isSpecialPw c = true) :
    mkUserAuth u p = .ok (u, p) ∧
    (∀ r, mkUserAuth u q ≠ .ok r) ∧
    (∀ s, credentialPipeline u q ≠ .ok s) := by
  have husr : ¬ ((u.length < 3 || u.length > 50) = true) := by
    simp only [Bool.or_eq_true, decide_eq_true_eq]
    omega
  have hne : p.data ≠ [] := by
    intro h
    have : p.length = 0 := by
      show p.data.length = 0
      rw [h]
      rfl
    omega
  have hregex : passwordRegexMatch p.data = true := by
    simp only [passwordRegexMatch, Bool.and_eq_true]
    refine ⟨⟨⟨⟨?_, ?_⟩, ?_⟩, ?_⟩, ?_⟩
    · exact lookaheadContains_of_mem _ _ halpha hlow
    · exact lookaheadContains_of_mem _ _ halpha hupp
    · exact lookaheadContains_of_mem _ _ halpha hdig
    · exact lookaheadContains_of_mem _ _ halpha hspc
    · cases hp : p.data with
      | nil => exact absurd hp hne
      | cons a t =>
          exact halpha a (by rw [hp]; exact List.mem_cons_self a t)
  have hqshort : mkUserAuth u q = .error .passwordTooShort := by
    simp only [mkUserAuth]
    rw [if_neg husr, if_pos (by omega)]
  refine ⟨?_, ?_, ?_⟩
  · simp only [mkUserAuth]
    rw [if_neg husr, if_neg (by omega), if_neg (by simp [hregex])]
  · intro r hr
    rw [hqshort] at hr
    cases hr
  · intro s hs
    simp only [credentialPipeline, hqshort, Except.map] at hs
    cases hs

/-- Witness for C8 at concrete credentials: an accepted 12-character
password with all four classes over the regex alphabet, and a rejected
11-character password. -/
theorem passwordPolicyWitness :
    mkUserAuth "analyst1" "Aa1@bcdefghi"
      = .ok ("analyst1", "Aa1@bcdefghi") ∧
    (∀ r, mkUserAuth "analyst1" "Aa1@bcdefgh" ≠ .ok r) ∧
    (∀ s, credentialPipeline "analyst1" "Aa1@bcdefgh" ≠ .ok s) := by
  have h := passwordPolicy "analyst1" "Aa1@bcdefghi" "Aa1@bcdefgh"
    (by decide) (by decide) (by decide) (by decide) (by decide)
    (by decide) (by decide) (by decide) (by decide)
  exact h

end AuthSvc

namespace LogicApps

/-- C5 counterexample.  A definition with retry_on_failure set and the
default max_retries of 3, against a call that fails every attempt: the
claim says the failing execution transitions to status retrying and then
re-enters running under the SAME execution id.  In the code, the retrying
status never appears in any record history - every record runs pending,
running, failed - and each retry runs under a fresh execution id (four
distinct ids for the four attempts), with backoff waits of 60, 120 and 180
seconds and final status failed. -/
theorem retryCounterexample :
    c5Run.records.map ExecutionRecord.executionId = [0, 1, 2, 3] ∧
    (∀ r ∈ c5Run.records, WorkflowStatus.retrying ∉ r.statusHistory) ∧
    (∀ r ∈ c5Run.records,
      r.statusHistory = [.pending, .running, .failed]) ∧
    c5Run.waits = [60, 120, 180] ∧
    c5Run.finalStatus = .failed ∧
    c5Run.defn.retryCount = 3 := by
  decide

/-- One-step unfolding of executeWorkflowAux with no retry remaining. -/
theorem executeWorkflowAux_zero (oracle : ℕ → Bool)
    (defn : WorkflowDefinition) (n : ℕ) :
    executeWorkflowAux oracle 0 defn n
      = if oracle n then
          ⟨[⟨n, [.pending, .running, .completed]⟩], [], .completed, defn⟩
        else
          ⟨[⟨n, [.pending, .running, .failed]⟩], [], .failed, defn⟩ := rfl

/-- One-step unfolding of executeWorkflowAux with a retry remaining. -/
theorem executeWorkflowAux_succ (oracle : ℕ → Bool) (r : ℕ)
    (defn : WorkflowDefinition) (n : ℕ) :
    executeWorkflowAux oracle (r + 1) defn n
      = if oracle n then
          ⟨[⟨n, [.pending, .running, .completed]⟩], [], .completed, defn⟩
        else if defn.retryOnFailure then
          ⟨⟨n, [.pending, .running, .failed]⟩
              :: (executeWorkflowAux oracle r
                  { defn with retryCount := defn.retryCount + 1 }
                  (n + 1)).records,
           60 * (defn.retryCount + 1)
              :: (executeWorkflowAux oracle r
                  { defn with retryCount := defn.retryCount + 1 }
                  (n + 1)).waits,
           (executeWorkflowAux oracle r
              { defn with retryCount := defn.retryCount + 1 }
              (n + 1)).finalStatus,
           (executeWorkflowAux oracle r
              { defn with retryCount := defn.retryCount + 1 }
              (n + 1)).defn⟩
        else
          ⟨[⟨n, [.pending, .running, .failed]⟩], [], .failed, defn⟩ := rfl

/-- Structure of any executeWorkflowAux run: every record history is
pending, running, completed or pending, running, failed (so retrying never
occurs and no record moves backward); execution ids are consecutive fresh
values; the number of attempts is bounded by one more than the remaining
retries; the backoff waits are 60 times the successive bumped retry
counters; the definition counter is bumped once per retry; the final
status is completed or failed. -/
theorem executeWorkflowAuxSpec (oracle : ℕ → Bool) (remaining : ℕ) :
    ∀ (defn : WorkflowDefinition) (n : ℕ),
    (∀ r ∈ (executeWorkflowAux oracle remaining defn n).records,
        r.statusHistory = [.pending, .running, .completed] ∨
        r.statusHistory = [.pending, .running, .failed]) ∧
    ((executeWorkflowAux oracle remaining defn n).records.map
        ExecutionRecord.executionId
      = List.range' n
          (executeWorkflowAux oracle remaining defn n).records.length) ∧
    1 ≤ (executeWorkflowAux oracle remaining defn n).records.length ∧
    (executeWorkflowAux oracle remaining defn n).records.length
      ≤ remaining + 1 ∧
    ((executeWorkflowAux oracle remaining defn n).waits
      = (List.range' (defn.retryCount + 1)
          ((executeWorkflowAux oracle remaining defn n).records.length - 1)
         ).map (fun k => 60 * k)) ∧
    ((executeWorkflowAux oracle remaining defn n).defn.retryCount
      = defn.retryCount
        + ((executeWorkflowAux oracle remaining defn n).records.length - 1)) ∧
    ((executeWorkflowAux oracle remaining defn n).finalStatus = .completed ∨
     (executeWorkflowAux oracle remaining defn n).finalStatus = .failed) := by
  induction remaining with
  | zero =>
      intro defn n
      rw [executeWorkflowAux_zero]
      by_cases ho : oracle n = true <;> simp [ho, List.range']
  | succ r ih =>
      intro defn n
      rw [executeWorkflowAux_succ]
      by_cases ho : oracle n = true
      · simp [ho, List.range']
      · by_cases hro : defn.retryOnFailure = true
        · obtain ⟨ih1, ih2, ih3, ih4, ih5, ih6, ih7⟩ :=
            ih { defn with retryCount := defn.retryCount + 1 } (n + 1)
          rw [if_neg (by simp [ho]), if_pos hro]
          obtain ⟨k, hk⟩ : ∃ k,
              (executeWorkflowAux oracle r
                { defn with retryCount := defn.retryCount + 1 }
                (n + 1)).records.length = k + 1 :=
            ⟨_, (Nat.succ_pred_eq_of_pos ih3).symm⟩
          refine ⟨?_, ?_, ?_, ?_, ?_, ?_, ?_⟩
          · intro rec hrec
            rcases List.mem_cons.mp hrec with rfl | hmem
            · exact Or.inr rfl
            · exact ih1 rec hmem
          · simp only [List.map_cons, List.length_cons, ih2]
            rw [List.range'_succ]
          · simp only [List.length_cons]
            omega
          · simp only [List.length_cons]
            omega
          · simp only [List.length_cons, ih5, hk]
            simp only [Nat.add_sub_cancel]
            rw [List.range'_succ, List.map_cons]
          · simp only [List.length_cons, ih6, hk]
            omega
          · exact ih7
        · rw [if_neg (by simp [ho]), if_neg hro]
          simp [List.range']

/-- C5 (amended): when an execution fails with retry_on_failure set and
the definition retry counter below max_retries (default 3), the failed
record keeps status failed - the retrying status is never assigned - the
definition counter is bumped, the service sleeps 60 times the bumped
counter and re-runs the workflow as a NEW execution with a fresh execution
id; attempts stop after max_retries - retry_count retries, every record
history is pending, running, completed-or-failed (no backward moves), and
the run ends completed or failed. -/
theorem retrySemantics (defn : WorkflowDefinition) (oracle : ℕ → Bool)
    (n : ℕ) :
    (mkWorkflowDefinition true none).maxRetries = 3 ∧
    (∀ r ∈ (executeWorkflow defn oracle n).records,
        r.statusHistory = [.pending, .running, .completed] ∨
        r.statusHistory = [.pending, .running, .failed]) ∧
    (∀ r ∈ (executeWorkflow defn oracle n).records,
        WorkflowStatus.retrying ∉ r.statusHistory) ∧
    ((executeWorkflow defn oracle n).records.map
        ExecutionRecord.executionId
      = List.range' n (executeWorkflow defn oracle n).records.length) ∧
    ((executeWorkflow defn oracle n).records.map
        ExecutionRecord.executionId).Nodup ∧
    (executeWorkflow defn oracle n).records.length
      ≤ (defn.maxRetries - defn.retryCount) + 1 ∧
    ((executeWorkflow defn oracle n).waits
      = (List.range' (defn.retryCount + 1)
          ((executeWorkflow defn oracle n).records.length - 1)
         ).map (fun k => 60 * k)) ∧
    ((executeWorkflow defn oracle n).defn.retryCount
      = defn.retryCount
        + ((executeWorkflow defn oracle n).records.length - 1)) ∧
    ((executeWorkflow defn oracle n).finalStatus = .completed ∨
     (executeWorkflow defn oracle n).finalStatus = .failed) := by
  simp only [executeWorkflow]
  obtain ⟨h1, h2, h3, h4, h5, h6, h7⟩ :=
    executeWorkflowAuxSpec oracle (defn.maxRetries - defn.retryCount) defn n
  refine ⟨rfl, h1, ?_, h2, ?_, h4, h5, h6, h7⟩
  · intro rec hrec
    rcases h1 rec hrec with h | h <;> rw [h] <;> simp
  · rw [h2]
    exact List.nodup_range' _ _

end LogicApps

namespace Selector

/-- Reading a pointwise sum of score dictionaries. -/
theorem get_add (a b : ComplexityScores) (l : Level) :
    (a.add b).get l = a.get l + b.get l := by
  cases l <;> rfl

/-- The dictionary total is the sum over the four levels. -/
theorem total_eq_sum_get (s : ComplexityScores) :
    s.total = s.get .simple + s.get .medium + s.get .complex
      + s.get .advanced := rfl

/-- Totals add pointwise. -/
theorem total_add (a b : ComplexityScores) :
    (a.add b).total = a.total + b.total := by
  simp only [ComplexityScores.add, ComplexityScores.total]
  ring

/-- Keyword contributions are nonnegative. -/
theorem kwScores_get_nonneg (c s m : ℕ) (l : Level) :
    0 ≤ (kwScores c s m).get l := by
  cases l <;> simp only [kwScores, ComplexityScores.get] <;> split <;>
    positivity

/-- Word-band contributions are nonnegative. -/
theorem wordBandScores_get_nonneg (w : ℕ) (l : Level) :
    0 ≤ (wordBandScores w).get l := by
  unfold wordBandScores
  split_ifs <;> cases l <;> simp only [ComplexityScores.get] <;> norm_num

/-- Token-band contributions are nonnegative. -/
theorem tokenBandScores_get_nonneg (t : ℕ) (l : Level) :
    0 ≤ (tokenBandScores t).get l := by
  unfold tokenBandScores
  split_ifs <;> cases l <;> simp only [ComplexityScores.get] <;> norm_num

/-- Pattern contributions are nonnegative. -/
theorem patternScores_get_nonneg (a b c : Bool) (l : Level) :
    0 ≤ (patternScores a b c).get l := by
  cases l <;> simp only [patternScores, ComplexityScores.get] <;>
    (try split_ifs) <;> norm_num

/-- Raw scores are nonnegative at every level. -/
theorem rawScores_get_nonneg (q : List Char) (l : Level) :
    0 ≤ (rawScores q).get l := by
  unfold rawScores
  simp only [get_add]
  have h1 := kwScores_get_nonneg (kwMatches complexKeywords (lowerStr q))
    (kwMatches simpleKeywords (lowerStr q))
    (kwMatches mediumKeywords (lowerStr q)) l
  have h2 := wordBandScores_get_nonneg (pyWordCount q) l
  have h3 := tokenBandScores_get_nonneg (countTokens q) l
  have h4 := patternScores_get_nonneg
    (searchWB ["yoy", "qoq", "mom", "ytd", "mtd"] (lowerStr q))
    (searchWB ["dax", "sql", "query", "formula"] (lowerStr q))
    (searchWB ["machine learning", "AI", "deep learning", "neural"]
      (lowerStr q)) l
  linarith

/-- A total over nonnegative entries is nonnegative. -/
theorem total_nonneg_of_get (s : ComplexityScores)
    (h : ∀ l, 0 ≤ s.get l) : 0 ≤ s.total := by
  rw [total_eq_sum_get]
  have h1 := h .simple
  have h2 := h .medium
  have h3 := h .complex
  have h4 := h .advanced
  linarith

/-- Exactly one word band fires, worth at least 0.3. -/
theorem wordBandScores_total (w : ℕ) :
    3/10 ≤ (wordBandScores w).total := by
  unfold wordBandScores
  split_ifs <;> simp only [ComplexityScores.total] <;> norm_num

/-- Exactly one token band fires, worth at least 0.2. -/
theorem tokenBandScores_total (t : ℕ) :
    1/5 ≤ (tokenBandScores t).total := by
  unfold tokenBandScores
  split_ifs <;> simp only [ComplexityScores.total] <;> norm_num

/-- The raw total is at least 0.5, hence positive: the word band and the
token band always fire. -/
theorem rawScores_total_pos (q : List Char) : 0 < (rawScores q).total := by
  unfold rawScores
  rw [total_add, total_add, total_add]
  have h1 := total_nonneg_of_get _ (fun l => kwScores_get_nonneg
    (kwMatches complexKeywords (lowerStr q))
    (kwMatches simpleKeywords (lowerStr q))
    (kwMatches mediumKeywords (lowerStr q)) l)
  have h2 := wordBandScores_total (pyWordCount q)
  have h3 := tokenBandScores_total (countTokens q)
  have h4 := total_nonneg_of_get _ (fun l => patternScores_get_nonneg
    (searchWB ["yoy", "qoq", "mom", "ytd", "mtd"] (lowerStr q))
    (searchWB ["dax", "sql", "query", "formula"] (lowerStr q))
    (searchWB ["machine learning", "AI", "deep learning", "neural"]
      (lowerStr q)) l)
  linarith

/-- Since the total is always positive, the normalising branch fires. -/
theorem normalizedScores_eq (q : List Char) :
    normalizedScores q
      = ⟨(rawScores q).simple / (rawScores q).total,
         (rawScores q).medium / (rawScores q).total,
         (rawScores q).complex / (rawScores q).total,
         (rawScores q).advanced / (rawScores q).total⟩ := by
  unfold normalizedScores
  rw [if_pos (rawScores_total_pos q)]

/-- Normalised read at a level. -/
theorem normalizedScores_get (q : List Char) (l : Level) :
    (normalizedScores q).get l
      = (rawScores q).get l / (rawScores q).total := by
  rw [normalizedScores_eq]
  cases l <;> rfl

/-- The normalised scores sum to 1. -/
theorem normalizedScores_total (q : List Char) :
    (normalizedScores q).total = 1 := by
  rw [normalizedScores_eq]
  simp only [ComplexityScores.total]
  rw [div_add_div_same, div_add_div_same, div_add_div_same]
  exact div_self (ne_of_gt (rawScores_total_pos q))

/-- Each raw score is at most the total. -/
theorem rawScores_get_le_total (q : List Char) (l : Level) :
    (rawScores q).get l ≤ (rawScores q).total := by
  have h1 := rawScores_get_nonneg q .simple
  have h2 := rawScores_get_nonneg q .medium
  have h3 := rawScores_get_nonneg q .complex
  have h4 := rawScores_get_nonneg q .advanced
  rw [total_eq_sum_get]
  cases l <;> simp only [ComplexityScores.get] at * <;> linarith

/-- The Python max of the score dictionary is a maximiser. -/
theorem pyMaxLevel_le (f : Level → ℚ) (l : Level) :
    f l ≤ f (pyMaxLevel f) := by
  simp only [pyMaxLevel, List.foldl_cons, List.foldl_nil]
  split_ifs <;> cases l <;> linarith

/-- The Python max keeps the FIRST key of maximal value: any key earlier
in insertion order has a strictly smaller value. -/
theorem pyMaxLevel_first (f : Level → ℚ) (l : Level)
    (hlt : levelIdx l < levelIdx (pyMaxLevel f)) :
    f l < f (pyMaxLevel f) := by
  revert hlt
  simp only [pyMaxLevel, List.foldl_cons, List.foldl_nil]
  split_ifs <;> cases l <;>
    simp only [levelIdx] <;> intro hlt <;> first | omega | linarith

end Selector

namespace Selector

/-- C9 (amended): for every query, the raw per-level scores are normalised
to sum to 1 and the returned confidence is the normalised score of the
returned level, so it lies in the interval from 0 to 1; the returned level
is a maximiser of the normalised scores; and when several levels tie for
the maximum the tie is broken deterministically in favour of the LOWER
complexity level (the first key in the dictionary insertion order simple,
medium, complex, advanced - the Python max keeps the first maximal key). -/
theorem classifierNormalisation (q : List Char) :
    (analyzeQueryComplexity q).2
      = (normalizedScores q).get (analyzeQueryComplexity q).1 ∧
    0 ≤ (analyzeQueryComplexity q).2 ∧
    (analyzeQueryComplexity q).2 ≤ 1 ∧
    (normalizedScores q).total = 1 ∧
    (∀ l, (normalizedScores q).get l
      ≤ (normalizedScores q).get (analyzeQueryComplexity q).1) ∧
    (∀ l, levelIdx l < levelIdx (analyzeQueryComplexity q).1 →
      (normalizedScores q).get l
        < (normalizedScores q).get (analyzeQueryComplexity q).1) := by
  have hconf : (analyzeQueryComplexity q).2
      = (normalizedScores q).get (analyzeQueryComplexity q).1 := rfl
  have hpos := rawScores_total_pos q
  refine ⟨hconf, ?_, ?_, normalizedScores_total q,
    fun l => pyMaxLevel_le (normalizedScores q).get l,
    fun l h => pyMaxLevel_first (normalizedScores q).get l h⟩
  · rw [hconf, normalizedScores_get]
    exact div_nonneg (rawScores_get_nonneg q _) (le_of_lt hpos)
  · rw [hconf, normalizedScores_get]
    rw [div_le_one hpos]
    exact rawScores_get_le_total q _

set_option maxRecDepth 400000 in
/-- C9 counterexample.  On the concrete query of cexQuery the simple and
advanced levels tie at normalised score 0.4 (an equality that is exact in
binary floating point as well: both are the sum 0.4 of identical float
literals, normalised by the same total 1.0), and the classifier returns
simple - the LOWER complexity level - with confidence 0.4, not advanced as
the claim requires. -/
theorem classifierTieCounterexample :
    (normalizedScores cexQuery).get .simple
      = (normalizedScores cexQuery).get .advanced ∧
    (normalizedScores cexQuery).get .simple = 2/5 ∧
    (normalizedScores cexQuery).get .medium = 1/5 ∧
    analyzeQueryComplexity cexQuery
      = (ModelRouter.ComplexityLevel.simple, 2/5) := by
  have hc : kwMatches complexKeywords (lowerStr cexQuery) = 0 := by decide
  have hs : kwMatches simpleKeywords (lowerStr cexQuery) = 1 := by decide
  have hm : kwMatches mediumKeywords (lowerStr cexQuery) = 0 := by decide
  have hw : pyWordCount cexQuery = 60 := by decide
  have ht : countTokens cexQuery = 30 := by decide
  have hp1 : searchWB ["yoy", "qoq", "mom", "ytd", "mtd"]
      (lowerStr cexQuery) = false := by decide
  have hp2 : searchWB ["dax", "sql", "query", "formula"]
      (lowerStr cexQuery) = false := by decide
  have hp3 : searchWB ["machine learning", "AI", "deep learning", "neural"]
      (lowerStr cexQuery) = false := by decide
  have hraw : rawScores cexQuery = ⟨2/5, 1/5, 0, 2/5⟩ := by
    simp only [rawScores]
    rw [hc, hs, hm, hw, ht, hp1, hp2, hp3]
    norm_num [kwScores, wordBandScores, tokenBandScores, patternScores,
      ComplexityScores.add]
  have hns : normalizedScores cexQuery = ⟨2/5, 1/5, 0, 2/5⟩ := by
    rw [normalizedScores_eq, hraw]
    norm_num [ComplexityScores.total]
  refine ⟨by rw [hns]; rfl, by rw [hns]; rfl, by rw [hns]; rfl, ?_⟩
  show (pyMaxLevel (normalizedScores cexQuery).get,
    (normalizedScores cexQuery).get
      (pyMaxLevel (normalizedScores cexQuery).get))
    = (ModelRouter.ComplexityLevel.simple, 2/5)
  rw [hns]
  norm_num [pyMaxLevel, ComplexityScores.get, List.foldl_cons,
    List.foldl_nil]

end Selector
